import Mathlib

/-!
Verification of the shift-override resolution and attendance-marking core of
the Security-System repository (src/app.py, src/models.py).

The Python route handlers are shallowly embedded as pure Lean functions over
an explicit database state `DB` (lists of rows, mirroring the SQLAlchemy
tables).  SQLAlchemy's `filter_by(...).all()` becomes `List.filter`,
`filter_by(...).first()` becomes `List.find?`, in-place mutation of the row
returned by `.first()` becomes `updateFirst`, and `db.session.add` becomes an
append together with an autoincrement counter.  Dates and timestamps are
abstract `Nat` values passed explicitly (the handlers use `date.today()` /
`datetime.utcnow()`, which we thread in as the `today` / `now` arguments).
The Flask session is an `Option Principal` (username + role); HTTP responses
become the `Resp` type carrying a status code and message on error.
-/

namespace SecuritySystem

/-- Row of the `Company` table (src/models.py). -/
structure Company where
  id : Nat
  name : String
deriving Repr, DecidableEq

/-- Row of the `Location` table (src/models.py). -/
structure Location where
  id : Nat
  name : String
  company_id : Nat
  is_accessible : Bool
deriving Repr, DecidableEq

/-- Row of the `Guard` table (src/models.py). -/
structure Guard where
  id : Nat
  name : String
  location_id : Nat
  shift_type : String
  role : String
  is_active : Bool
  notes : Option String
deriving Repr, DecidableEq

/-- Row of the `Attendance` table (src/models.py); `status`, `notes` are
nullable columns. -/
structure Attendance where
  id : Nat
  guard_id : Nat
  date : Nat
  shift : String
  status : Option String
  notes : Option String
  marked_by : String
  timestamp : Nat
deriving Repr, DecidableEq

/-- Row of the `ShiftOverride` table (src/models.py); the two location
columns are nullable. -/
structure ShiftOverride where
  id : Nat
  guard_id : Nat
  original_shift : String
  override_shift : String
  original_location_id : Option Nat
  override_location_id : Option Nat
  date : Nat
  reason : String
  created_by : String
  created_at : Nat
  is_active : Bool
deriving Repr, DecidableEq

/-- The relational store: one list per table, plus autoincrement counters for
the two tables the embedded handlers insert into. -/
structure DB where
  companies : List Company
  locations : List Location
  guards : List Guard
  overrides : List ShiftOverride
  attendance : List Attendance
  attendance_next_id : Nat
  override_next_id : Nat
deriving Repr, DecidableEq

/-- The authenticated session: `session['username']` and `session['role']`. -/
structure Principal where
  username : String
  role : String
deriving Repr, DecidableEq

/-- `ATTENDANCE_WRITE_ROLES = ['Supervisor', 'Business Support Officer']`
(src/app.py line 60). -/
def ATTENDANCE_WRITE_ROLES : List String := ["Supervisor", "Business Support Officer"]

/-- An HTTP-level response: success payload, or error status code + message. -/
inductive Resp (α : Type) where
  | ok : α → Resp α
  | err : Nat → String → Resp α
deriving Repr, DecidableEq

/-- Whether a response is a success. -/
def Resp.isOk {α : Type} : Resp α → Bool
  | .ok _ => true
  | .err _ _ => false

/-- Replace the first element satisfying `p` by its image under `f`; embeds
"`query.filter_by(...).first()` then mutate the returned row in place". -/
def updateFirst {α : Type} (p : α → Bool) (f : α → α) : List α → List α
  | [] => []
  | x :: xs => if p x then f x :: xs else x :: updateFirst p f xs

/-- Python `x or d` for an optional integer `x`: `None` and `0` are falsy. -/
def pyOr (x : Option Nat) (d : Nat) : Nat :=
  match x with
  | none => d
  | some v => if v = 0 then d else v

/-- Python truthiness of the nullable `status` column: `None` and the empty
string are falsy (`if attendance and attendance.status`). -/
def truthyStatus : Option String → Bool
  | none => false
  | some s => s != ""

/-- Natural-key predicate for an attendance row: `filter_by(guard_id=...,
date=..., shift=...)`. -/
def attKeyP (gid : Nat) (d : Nat) (sh : String) (a : Attendance) : Bool :=
  a.guard_id == gid && a.date == d && a.shift == sh

/-- Key predicate for an active override row: `filter_by(guard_id=...,
date=..., is_active=True)`. -/
def overrideKeyP (gid : Nat) (d : Nat) (o : ShiftOverride) : Bool :=
  o.guard_id == gid && o.date == d && o.is_active

/-- `ShiftOverride.query.filter_by(guard_id=gid, date=today, is_active=True).first()`. -/
def findOverrideFor (db : DB) (gid : Nat) (today : Nat) : Option ShiftOverride :=
  db.overrides.find? (overrideKeyP gid today)

/-- `Attendance.query.filter_by(guard_id=gid, date=today, shift=shift).first()`. -/
def findAttendance (db : DB) (gid : Nat) (today : Nat) (shift : String) : Option Attendance :=
  db.attendance.find? (attKeyP gid today shift)

/-- The `override.guard` relationship: the guard row referenced by
`override.guard_id`. -/
def overrideGuard (db : DB) (o : ShiftOverride) : Option Guard :=
  db.guards.find? (fun g => g.id == o.guard_id)

/-- One entry of the JSON list returned by `get_guards` (src/app.py
lines 1173-1247).  Keys that the Python dict only sometimes carries are
`Option`-valued, `none` when absent. -/
structure GuardEntry where
  id : Nat
  name : String
  role : String
  status : Option String
  notes : Option String
  default_shift : String
  current_shift : String
  has_override : Bool
  is_temporary : Bool
  override_reason : Option String
  is_shift_changed : Option Bool
  is_location_changed : Option Bool
  original_location : Option String
  original_company : Option String
deriving Repr, DecidableEq

/-- The dict built for a regular guard in `get_guards` (src/app.py
lines 1186-1210), with the extra override keys when an override exists. -/
def regularEntry (db : DB) (g : Guard) (ov : Option ShiftOverride)
    (shift : String) (today : Nat) : GuardEntry :=
  let att := findAttendance db g.id today shift
  { id := g.id
    name := g.name
    role := g.role
    status := att.bind Attendance.status
    notes := match att with | some a => a.notes | none => some ""
    default_shift := g.shift_type
    current_shift := match ov with | some o => o.override_shift | none => g.shift_type
    has_override := ov.isSome
    is_temporary := false
    override_reason := ov.map ShiftOverride.reason
    is_shift_changed := ov.map (fun o => o.original_shift != o.override_shift)
    is_location_changed := ov.map (fun o => o.original_location_id != o.override_location_id)
    original_location := none
    original_company := none }

/-- The dict built for a temporarily assigned guard in `get_guards`
(src/app.py lines 1221-1245).  Accessing `override.original_location.name`
and `...company.name` dereferences nullable relationships: a missing row
raises in Python (an uncaught exception, hence a 500), modelled by `none`. -/
def tempEntry (db : DB) (g : Guard) (o : ShiftOverride)
    (shift : String) (today : Nat) : Option GuardEntry :=
  match o.original_location_id.bind (fun i => db.locations.find? (fun l => l.id == i)) with
  | none => none
  | some origLoc =>
    match db.companies.find? (fun c => c.id == origLoc.company_id) with
    | none => none
    | some comp =>
      let att := findAttendance db g.id today shift
      some
        { id := g.id
          name := g.name
          role := g.role
          status := att.bind Attendance.status
          notes := match att with | some a => a.notes | none => some ""
          default_shift := g.shift_type
          current_shift := o.override_shift
          has_override := true
          is_temporary := true
          override_reason := some o.reason
          is_shift_changed := some (o.original_shift != o.override_shift)
          is_location_changed := some true
          original_location := some origLoc.name
          original_company := some comp.name }

/-- The loop over `regular_guards` in `get_guards` (src/app.py
lines 1173-1211): a guard whose active override points to a different
location is skipped; note the loop neither consults `is_active` nor compares
the override's shift. -/
def processRegular (db : DB) (location_id : Nat) (shift : String) (today : Nat) :
    List Guard → List GuardEntry
  | [] => []
  | g :: rest =>
    match findOverrideFor db g.id today with
    | some o =>
      if o.override_location_id != some location_id then
        processRegular db location_id shift today rest
      else
        regularEntry db g (some o) shift today :: processRegular db location_id shift today rest
    | none => regularEntry db g none shift today :: processRegular db location_id shift today rest

/-- The loop over `temp_overrides` in `get_guards` (src/app.py
lines 1214-1247), accumulating onto the already-built result list; a guard
whose id already appears in the accumulated list is skipped
(de-duplication), and a dangling `override.guard` / original-location /
company reference aborts the request (`none`, an HTTP 500). -/
def processTemp (db : DB) (shift : String) (today : Nat)
    (acc : List GuardEntry) : List ShiftOverride → Option (List GuardEntry)
  | [] => some acc
  | o :: rest =>
    match overrideGuard db o with
    | none => none
    | some g =>
      if acc.any (fun e => e.id == g.id) then
        processTemp db shift today acc rest
      else
        match tempEntry db g o shift today with
        | none => none
        | some e => processTemp db shift today (acc ++ [e]) rest

/-- `get_guards` (src/app.py lines 1137-1249): the roster resolver for
`(location_id, shift)` on `today`. -/
def get_guards : DB → Option Principal → Nat → String → Nat → Resp (List GuardEntry)
  | _, none, _, _, _ => .err 401 "Not authenticated"
  | db, some p, location_id, shift, today =>
    if ¬ ATTENDANCE_WRITE_ROLES.contains p.role then
      .err 403 "Access denied to fetch guard data for marking."
    else
      match db.locations.find? (fun l => l.id == location_id) with
      | none => .err 404 "Not Found"
      | some location =>
        if ¬ location.is_accessible then
          .err 403 "Access denied: Location is not accessible"
        else
          let regular_guards :=
            db.guards.filter (fun g => g.location_id == location_id && g.shift_type == shift)
          let temp_overrides :=
            db.overrides.filter (fun o =>
              o.override_location_id == some location_id && o.override_shift == shift &&
              o.date == today && o.is_active)
          let regulars := processRegular db location_id shift today regular_guards
          match processTemp db shift today regulars temp_overrides with
          | none => .err 500 "Internal Server Error"
          | some res => .ok res

/-- `mark_attendance` (src/app.py lines 1251-1312), after the session has
been validated.  Only `session['role']` is consumed past that point (it is
what gets stored in `marked_by`), so the core takes the role alone.  Inside
the handler's `try`, `Guard.query.get_or_404` raising for a missing guard is
caught by the blanket `except Exception`, hence a 500; a dangling
`guard.location` relationship likewise.  The accessibility check is against
`guard.location` — the guard's home location row. -/
def mark_attendance_core (db : DB) (role : String) (guard_id : Nat)
    (status shift notes : String) (today now : Nat) : DB × Resp String :=
  match db.guards.find? (fun g => g.id == guard_id) with
  | none => (db, .err 500 "An internal server error occurred during processing.")
  | some guard =>
    match db.locations.find? (fun l => l.id == guard.location_id) with
    | none => (db, .err 500 "An internal server error occurred during processing.")
    | some loc =>
      if ¬ loc.is_accessible then
        (db, .err 403 "Guard assigned to an inaccessible location")
      else
        match db.attendance.find? (attKeyP guard_id today shift) with
        | some _ =>
          ({ db with
              attendance := updateFirst (attKeyP guard_id today shift)
                (fun a => { a with status := some status, notes := some notes,
                                   marked_by := role, timestamp := now }) db.attendance },
           .ok ("Attendance updated for " ++ guard.name ++ "."))
        | none =>
          ({ db with
              attendance := db.attendance ++
                [{ id := db.attendance_next_id, guard_id := guard_id, date := today,
                   shift := shift, status := some status, notes := some notes,
                   marked_by := role, timestamp := now }],
              attendance_next_id := db.attendance_next_id + 1 },
           .ok ("Attendance recorded for " ++ guard.name ++ "."))

/-- `mark_attendance` (src/app.py lines 1251-1312): `check_write_access`
(401 when unauthenticated, 403 when the role is not in
`ATTENDANCE_WRITE_ROLES`), then the upsert core. -/
def mark_attendance : DB → Option Principal → Nat → String → String → String → Nat → Nat →
    DB × Resp String
  | db, none, _, _, _, _, _, _ => (db, .err 401 "Not authenticated")
  | db, some p, guard_id, status, shift, notes, today, now =>
    if ¬ ATTENDANCE_WRITE_ROLES.contains p.role then
      (db, .err 403 "Access denied - insufficient permissions")
    else
      mark_attendance_core db p.role guard_id status shift notes today now

/-- The in-place rewrite applied to an existing falsy-status record in the
bulk loop: status, marker and timestamp are set, notes are untouched
(src/app.py lines 1352-1355). -/
def bulkUpd (status role : String) (now : Nat) (a : Attendance) : Attendance :=
  { a with status := some status, marked_by := role, timestamp := now }

/-- The fresh record inserted by the bulk loop for a guard with no existing
record (src/app.py lines 1356-1362): no notes. -/
def bulkNew (db : DB) (gid : Nat) (status shift role : String) (today now : Nat) : Attendance :=
  { id := db.attendance_next_id, guard_id := gid, date := today, shift := shift,
    status := some status, notes := none, marked_by := role, timestamp := now }

/-- The per-guard loop of `bulk_mark_attendance` (src/app.py
lines 1336-1362), threading the evolving store and the two counters.  A
guard whose existing record for `(guard, today, shift)` has a truthy status
is skipped; otherwise the record is updated in place or a fresh one
inserted. -/
def bulkLoop (role shift status : String) (today now : Nat) :
    DB → Nat → Nat → List Guard → DB × Nat × Nat
  | db, marked, skipped, [] => (db, marked, skipped)
  | db, marked, skipped, g :: gs =>
    match db.attendance.find? (attKeyP g.id today shift) with
    | some a =>
      if truthyStatus a.status then
        bulkLoop role shift status today now db marked (skipped + 1) gs
      else
        bulkLoop role shift status today now
          { db with
              attendance := updateFirst (attKeyP g.id today shift)
                (bulkUpd status role now) db.attendance }
          (marked + 1) skipped gs
    | none =>
      bulkLoop role shift status today now
        { db with
            attendance := db.attendance ++ [bulkNew db g.id status shift role today now],
            attendance_next_id := db.attendance_next_id + 1 }
        (marked + 1) skipped gs

/-- The toast message built at the end of `bulk_mark_attendance`
(src/app.py lines 1366-1368): the skipped count is appended only when it is
positive. -/
def bulkMessage (marked skipped : Nat) : String :=
  toString marked ++ " guards marked successfully." ++
    (if skipped > 0 then
      " (" ++ toString skipped ++ " skipped as they were already marked.)"
     else "")

/-- `bulk_mark_attendance` (src/app.py lines 1314-1370): role gate, location
accessibility, then the loop over the guards whose home assignment is
`(location_id, shift)`.  The route serializes the final counters into the
toast message; the model returns the counters alongside it. -/
def bulk_mark_attendance : DB → Option Principal → Nat → String → String → Nat → Nat →
    DB × Resp (Nat × Nat × String)
  | db, none, _, _, _, _, _ => (db, .err 401 "Not authenticated")
  | db, some p, location_id, shift, status, today, now =>
    if ¬ ATTENDANCE_WRITE_ROLES.contains p.role then
      (db, .err 403 "Access denied - insufficient permissions")
    else
      match db.locations.find? (fun l => l.id == location_id) with
      | none => (db, .err 404 "Not Found")
      | some location =>
        if ¬ location.is_accessible then (db, .err 403 "Access denied")
        else
          let guards :=
            db.guards.filter (fun g => g.location_id == location_id && g.shift_type == shift)
          let out := bulkLoop p.role shift status today now db 0 0 guards
          (out.1, .ok (out.2.1, out.2.2, bulkMessage out.2.1 out.2.2))

/-- `create_shift_override` (src/app.py lines 1436-1485): role gate, guard
lookup (a proper 404 here — no surrounding `try`), then upsert on the active
`(guard, date)` key.  The update path rewrites the override-side fields,
reason, creator and timestamp of the existing active row and leaves its
`original_*` snapshot alone; the insert path snapshots the guard's current
home shift/location into `original_*`.  A missing `override_location_id`
(or a falsy `0`) defaults to the guard's home location, as Python's
`override_location_id or guard.location_id` does. -/
def create_shift_override : DB → Option Principal → Nat → String → Option Nat → String →
    Nat → Nat → DB × Resp String
  | db, none, _, _, _, _, _, _ => (db, .err 401 "Not authenticated")
  | db, some p, guard_id, override_shift, override_location_id, reason, target_date, now =>
    if ¬ ATTENDANCE_WRITE_ROLES.contains p.role then
      (db, .err 403 "Access denied - insufficient permissions")
    else
      match db.guards.find? (fun g => g.id == guard_id) with
      | none => (db, .err 404 "Not Found")
      | some guard =>
        match db.overrides.find? (overrideKeyP guard_id target_date) with
        | some _ =>
          ({ db with
              overrides := updateFirst (overrideKeyP guard_id target_date)
                (fun o => { o with
                    override_shift := override_shift,
                    override_location_id := some (pyOr override_location_id guard.location_id),
                    reason := reason, created_by := p.username, created_at := now })
                db.overrides },
           .ok "Shift override created successfully")
        | none =>
          ({ db with
              overrides := db.overrides ++
                [{ id := db.override_next_id, guard_id := guard_id,
                   original_shift := guard.shift_type, override_shift := override_shift,
                   original_location_id := some guard.location_id,
                   override_location_id := some (pyOr override_location_id guard.location_id),
                   date := target_date, reason := reason, created_by := p.username,
                   created_at := now, is_active := true }],
              override_next_id := db.override_next_id + 1 },
           .ok "Shift override created successfully")

/-- `remove_shift_override` (src/app.py lines 1528-1549): role gate, then
soft-deactivate the first active override for `(guard_id, today)`, or 404
when none exists.  The row is never removed from the table. -/
def remove_shift_override : DB → Option Principal → Nat → Nat → DB × Resp String
  | db, none, _, _ => (db, .err 401 "Not authenticated")
  | db, some p, guard_id, today =>
    if ¬ ATTENDANCE_WRITE_ROLES.contains p.role then
      (db, .err 403 "Access denied - insufficient permissions")
    else
      match db.overrides.find? (overrideKeyP guard_id today) with
      | none => (db, .err 404 "No active override found")
      | some _ =>
        ({ db with
            overrides := updateFirst (overrideKeyP guard_id today)
              (fun o => { o with is_active := false }) db.overrides },
         .ok "Shift override removed")

/-- Argument bundle for one `create_shift_override` call, used to talk about
arbitrary sequences of calls. -/
structure CreateReq where
  session : Option Principal
  guard_id : Nat
  override_shift : String
  override_location_id : Option Nat
  reason : String
  date : Nat
  now : Nat
deriving Repr, DecidableEq

/-- The store after one `create_shift_override` call (the response is
dropped). -/
def createStep (db : DB) (r : CreateReq) : DB :=
  (create_shift_override db r.session r.guard_id r.override_shift
    r.override_location_id r.reason r.date r.now).1

/-- The store after a sequence of `create_shift_override` calls. -/
def applyCreates : DB → List CreateReq → DB
  | db, [] => db
  | db, r :: rs => applyCreates (createStep db r) rs

/-- The invariant "at most one active override row per `(guard, date)`". -/
def ActiveUnique (db : DB) : Prop :=
  ∀ gid d, (db.overrides.countP (overrideKeyP gid d)) ≤ 1

/-- Whether the existing attendance record for `(gid, today, shift)` carries
a truthy status — the skip condition of the bulk-mark loop. -/
def alreadyMarked (db : DB) (gid : Nat) (today : Nat) (shift : String) : Bool :=
  match db.attendance.find? (attKeyP gid today shift) with
  | some a => truthyStatus a.status
  | none => false

/-- The inclusion condition of the regular-guard loop: keep the guard unless
their active override for the day points at a different location
(src/app.py lines 1180-1182). -/
def includeCond (db : DB) (location_id : Nat) (today : Nat) (g : Guard) : Bool :=
  match findOverrideFor db g.id today with
  | some o => o.override_location_id == some location_id
  | none => true

/-- `Guard.query.filter_by(location_id=..., shift_type=...)`: the static
home roster used by both `get_guards` and `bulk_mark_attendance`. -/
def homeGuards (db : DB) (location_id : Nat) (shift : String) : List Guard :=
  db.guards.filter (fun g => g.location_id == location_id && g.shift_type == shift)

/-! Concrete fixtures used by the counterexamples and witnesses below. -/

/-- A sample company. -/
def exCompany : Company := ⟨1, "Acme Holdings"⟩

/-- Accessible location 1 of the sample company. -/
def exLocA : Location := ⟨1, "Alpha Site", 1, true⟩

/-- Accessible location 2 of the sample company. -/
def exLocB : Location := ⟨2, "Beta Site", 1, true⟩

/-- Inaccessible location 3 of the sample company. -/
def exLocC : Location := ⟨3, "Gamma Site", 1, false⟩

/-- An active guard homed at `(location 1, day)`. -/
def exGuard : Guard := ⟨1, "Gina One", 1, "day", "guard", true, none⟩

/-- A second active guard homed at `(location 1, day)`. -/
def exGuard2 : Guard := ⟨2, "Gary Two", 1, "day", "guard", true, none⟩

/-- A supervisor principal. -/
def exSup : Principal := ⟨"alice", "Supervisor"⟩

/-- A different supervisor principal with the same role. -/
def exSup2 : Principal := ⟨"bob", "Supervisor"⟩

/-- An active override relocating guard 1 from location 1 to location 2 on
date 0, keeping the day shift. -/
def exOvReloc : ShiftOverride :=
  ⟨1, 1, "day", "day", some 1, some 2, 0, "relocation", "alice", 0, true⟩

/-- Store with guard 1 relocated to location 2 on date 0. -/
def exDBreloc : DB := ⟨[exCompany], [exLocA, exLocB], [exGuard], [exOvReloc], [], 1, 2⟩

/-- An active shift-only override for guard 1 on date 0: same location 1,
shift changed from day to night. -/
def exOvShiftOnly : ShiftOverride :=
  ⟨1, 1, "day", "night", some 1, some 1, 0, "night cover", "alice", 0, true⟩

/-- Store with guard 1 under a same-location, shift-only override on date 0. -/
def exDBshiftOnly : DB := ⟨[exCompany], [exLocA], [exGuard], [exOvShiftOnly], [], 1, 2⟩

/-- A deactivated (resigned) guard homed at `(location 1, day)`. -/
def exGuardInactive : Guard := ⟨1, "Rex Gone", 1, "day", "guard", false, none⟩

/-- Store whose only guard at `(location 1, day)` is deactivated. -/
def exDBinactive : DB := ⟨[exCompany], [exLocA], [exGuardInactive], [], [], 1, 1⟩

/-- A guard homed at the inaccessible location 3. -/
def exGuardAtC : Guard := ⟨1, "Hank Three", 3, "day", "guard", true, none⟩

/-- An active override relocating guard 1 from location 3 to the accessible
location 1 on date 0. -/
def exOvToA : ShiftOverride :=
  ⟨1, 1, "day", "day", some 3, some 1, 0, "relocation", "alice", 0, true⟩

/-- Store where guard 1's home location 3 is inaccessible but an active
override moves them to the accessible location 1 on date 0. -/
def exDBinaccHome : DB := ⟨[exCompany], [exLocA, exLocC], [exGuardAtC], [exOvToA], [], 1, 2⟩

/-- Store with one guard, no overrides and no attendance. -/
def exDBplain : DB := ⟨[exCompany], [exLocA], [exGuard], [], [], 1, 1⟩

/-- An attendance record marking guard 1 present on date 0, day shift. -/
def exAttPresent : Attendance := ⟨1, 1, 0, "day", some "present", none, "Supervisor", 0⟩

/-- Store with two guards at `(location 1, day)`, guard 1 already marked
present on date 0. -/
def exDBbulk : DB := ⟨[exCompany], [exLocA], [exGuard, exGuard2], [], [exAttPresent], 2, 1⟩

/-- The store `exDBbulk` after `bulk_mark_attendance` for (location 1, day)
with status "absent" on date 0 at time 5: guard 1's present record is
untouched, guard 2 gains an absent record. -/
def exDBbulkAfter : DB :=
  ⟨[exCompany], [exLocA], [exGuard, exGuard2], [],
   [exAttPresent, ⟨2, 2, 0, "day", some "absent", none, "Supervisor", 5⟩], 3, 1⟩

/-- The roster entry produced for guard 1 at location 2, day shift, date 0
in `exDBreloc` (the relocated guard as a temporary entry). -/
def exEntryReloc : GuardEntry :=
  ⟨1, "Gina One", "guard", none, some "", "day", "day", true, true,
   some "relocation", some false, some true, some "Alpha Site", some "Acme Holdings"⟩

/-- The roster produced by `get_guards exDBreloc (some exSup) 2 "day" 0`. -/
def exRosterB : List GuardEntry := [exEntryReloc]

/-- The roster entry produced for guard 1 at location 1, day shift, date 0
in `exDBshiftOnly` (the guard kept in the home-shift roster despite the
shift-only override, annotated with the override). -/
def exEntryShiftOnly : GuardEntry :=
  ⟨1, "Gina One", "guard", none, some "", "day", "night", true, false,
   some "night cover", some true, some false, none, none⟩

/-- The roster entry produced for the deactivated guard 1 at location 1,
day shift, date 0 in `exDBinactive`. -/
def exEntryInactive : GuardEntry :=
  ⟨1, "Rex Gone", "guard", none, some "", "day", "day", false, false,
   none, none, none, none, none⟩

/-! Generic lemmas about the list primitives that stand in for the ORM
operations. -/

theorem find?_eq_head?_filter {α : Type} (p : α → Bool) (l : List α) :
    l.find? p = (l.filter p).head? := by
  induction l with
  | nil => rfl
  | cons x xs ih =>
    by_cases h : p x
    · rw [List.find?_cons_of_pos _ h, List.filter_cons_of_pos h, List.head?_cons]
    · rw [List.find?_cons_of_neg _ h, List.filter_cons_of_neg h, ih]

theorem length_updateFirst {α : Type} (p : α → Bool) (f : α → α) (l : List α) :
    (updateFirst p f l).length = l.length := by
  induction l with
  | nil => rfl
  | cons x xs ih =>
    by_cases h : p x
    · simp [updateFirst, h]
    · simp [updateFirst, h, ih]

theorem mem_updateFirst_of_find? {α : Type} {p : α → Bool} {f : α → α} {l : List α} {x : α}
    (h : l.find? p = some x) : f x ∈ updateFirst p f l := by
  induction l with
  | nil => simp [List.find?] at h
  | cons y ys ih =>
    by_cases hy : p y
    · simp only [List.find?_cons_of_pos _ hy, Option.some.injEq] at h
      subst h
      simp [updateFirst, hy]
    · rw [List.find?_cons_of_neg _ hy] at h
      simp only [Bool.not_eq_true] at hy
      simp [updateFirst, hy, ih h]

theorem filter_updateFirst_key {α : Type} {p : α → Bool} {f : α → α}
    (hf : ∀ a, p a = true → p (f a) = true) (l : List α) :
    (updateFirst p f l).filter p =
      match l.filter p with
      | [] => []
      | a :: as => f a :: as := by
  induction l with
  | nil => rfl
  | cons x xs ih =>
    by_cases h : p x
    · simp [updateFirst, h, List.filter, hf x h]
    · simp only [Bool.not_eq_true] at h
      simp [updateFirst, h, List.filter, ih]

theorem filter_updateFirst_disj {α : Type} {p q : α → Bool} {f : α → α}
    (h1 : ∀ a, p a = true → q a = false) (h2 : ∀ a, p a = true → q (f a) = false)
    (l : List α) : (updateFirst p f l).filter q = l.filter q := by
  induction l with
  | nil => rfl
  | cons x xs ih =>
    by_cases h : p x
    · simp [updateFirst, h, List.filter, h1 x h, h2 x h]
    · simp only [Bool.not_eq_true] at h
      simp [updateFirst, h, List.filter, ih]

theorem countP_updateFirst {α : Type} {p q : α → Bool} {f : α → α}
    (h : ∀ a, p a = true → q (f a) = q a) (l : List α) :
    (updateFirst p f l).countP q = l.countP q := by
  induction l with
  | nil => rfl
  | cons x xs ih =>
    by_cases hx : p x
    · simp [updateFirst, hx, List.countP_cons, h x hx]
    · simp only [Bool.not_eq_true] at hx
      simp [updateFirst, hx, List.countP_cons, ih]

/-! Lemmas about the embedded queries and the roster-resolution loops. -/

theorem overrideKeyP_eq_true {gid d : Nat} {o : ShiftOverride} :
    overrideKeyP gid d o = true ↔ o.guard_id = gid ∧ o.date = d ∧ o.is_active = true := by
  simp [overrideKeyP, Bool.and_eq_true, beq_iff_eq, and_assoc]

theorem attKeyP_eq_true {gid d : Nat} {sh : String} {a : Attendance} :
    attKeyP gid d sh a = true ↔ a.guard_id = gid ∧ a.date = d ∧ a.shift = sh := by
  simp [attKeyP, Bool.and_eq_true, beq_iff_eq, and_assoc]

theorem findOverrideFor_mem {db : DB} {gid d : Nat} {o : ShiftOverride}
    (h : findOverrideFor db gid d = some o) :
    o ∈ db.overrides ∧ o.guard_id = gid ∧ o.date = d ∧ o.is_active = true :=
  ⟨List.mem_of_find?_eq_some h, overrideKeyP_eq_true.mp (List.find?_some h)⟩

theorem findOverrideFor_eq_some {db : DB} {gid d : Nat} {o : ShiftOverride}
    (ho : o ∈ db.overrides) (hk : overrideKeyP gid d o = true)
    (hu : ∀ o' ∈ db.overrides, overrideKeyP gid d o' = true → o' = o) :
    findOverrideFor db gid d = some o := by
  cases h : findOverrideFor db gid d with
  | none =>
    rw [findOverrideFor, List.find?_eq_none] at h
    exact absurd hk (by simpa using h o ho)
  | some o' =>
    rw [hu o' (List.mem_of_find?_eq_some h) (List.find?_some h)]

theorem overrideGuard_some {db : DB} {o : ShiftOverride} {g : Guard}
    (h : overrideGuard db o = some g) : g ∈ db.guards ∧ g.id = o.guard_id :=
  ⟨List.mem_of_find?_eq_some h, by simpa [beq_iff_eq] using List.find?_some h⟩

theorem regularEntry_id (db : DB) (g : Guard) (ov : Option ShiftOverride)
    (sh : String) (d : Nat) : (regularEntry db g ov sh d).id = g.id := rfl

theorem regularEntry_is_temporary (db : DB) (g : Guard) (ov : Option ShiftOverride)
    (sh : String) (d : Nat) : (regularEntry db g ov sh d).is_temporary = false := rfl

theorem regularEntry_has_override (db : DB) (g : Guard) (ov : Option ShiftOverride)
    (sh : String) (d : Nat) : (regularEntry db g ov sh d).has_override = ov.isSome := rfl

theorem regularEntry_current_shift (db : DB) (g : Guard) (o : ShiftOverride)
    (sh : String) (d : Nat) :
    (regularEntry db g (some o) sh d).current_shift = o.override_shift := rfl

theorem tempEntry_eq {db : DB} {g : Guard} {o : ShiftOverride} {sh : String} {d : Nat}
    {li : Nat} {L : Location} {C : Company}
    (hol : o.original_location_id = some li)
    (hL : db.locations.find? (fun l => l.id == li) = some L)
    (hC : db.companies.find? (fun c => c.id == L.company_id) = some C) :
    tempEntry db g o sh d = some
      { id := g.id, name := g.name, role := g.role,
        status := (findAttendance db g.id d sh).bind Attendance.status,
        notes := match findAttendance db g.id d sh with | some a => a.notes | none => some "",
        default_shift := g.shift_type,
        current_shift := o.override_shift,
        has_override := true, is_temporary := true,
        override_reason := some o.reason,
        is_shift_changed := some (o.original_shift != o.override_shift),
        is_location_changed := some true,
        original_location := some L.name, original_company := some C.name } := by
  simp [tempEntry, hol, hL, hC]

theorem tempEntry_some {db : DB} {g : Guard} {o : ShiftOverride} {sh : String} {d : Nat}
    {e : GuardEntry} (h : tempEntry db g o sh d = some e) :
    e.id = g.id ∧ e.is_temporary = true ∧ e.current_shift = o.override_shift ∧
    e.has_override = true := by
  unfold tempEntry at h
  cases h1 : o.original_location_id.bind (fun i => db.locations.find? (fun l => l.id == i)) with
  | none =>
    simp only [h1] at h
    exact Option.noConfusion h
  | some L =>
    simp only [h1] at h
    cases h2 : db.companies.find? (fun c => c.id == L.company_id) with
    | none =>
      simp only [h2] at h
      exact Option.noConfusion h
    | some C =>
      simp only [h2, Option.some.injEq] at h
      subst h
      exact ⟨rfl, rfl, rfl, rfl⟩

theorem processRegular_eq_filterMap (db : DB) (lid : Nat) (sh : String) (d : Nat)
    (gs : List Guard) :
    processRegular db lid sh d gs =
      (gs.filter (includeCond db lid d)).map
        (fun g => regularEntry db g (findOverrideFor db g.id d) sh d) := by
  induction gs with
  | nil => rfl
  | cons g rest ih =>
    cases hov : findOverrideFor db g.id d with
    | none =>
      have hinc : includeCond db lid d g = true := by simp [includeCond, hov]
      simp only [processRegular, hov, List.filter_cons_of_pos hinc, List.map_cons, ih]
    | some o =>
      by_cases hloc : (o.override_location_id == some lid) = true
      · have hinc : includeCond db lid d g = true := by simp [includeCond, hov, hloc]
        have hne : (o.override_location_id != some lid) = false := by
          simpa [bne] using hloc
        simp only [processRegular, hov, hne, Bool.false_eq_true, if_false,
          List.filter_cons_of_pos hinc, List.map_cons, ih]
      · have hinc : ¬ includeCond db lid d g = true := by
          simp only [includeCond, hov]; simpa using hloc
        have hne : (o.override_location_id != some lid) = true := by
          simpa [bne] using hloc
        simp only [processRegular, hov, hne, if_true, List.filter_cons_of_neg hinc, ih]

theorem mem_processRegular {db : DB} {lid : Nat} {sh : String} {d : Nat}
    {gs : List Guard} {e : GuardEntry} :
    e ∈ processRegular db lid sh d gs ↔
      ∃ g, g ∈ gs ∧ includeCond db lid d g = true ∧
        e = regularEntry db g (findOverrideFor db g.id d) sh d := by
  rw [processRegular_eq_filterMap]
  simp only [List.mem_map, List.mem_filter]
  constructor
  · rintro ⟨g, ⟨hg, hc⟩, rfl⟩
    exact ⟨g, hg, hc, rfl⟩
  · rintro ⟨g, hg, hc, rfl⟩
    exact ⟨g, ⟨hg, hc⟩, rfl⟩

theorem processRegular_ids_sublist (db : DB) (lid : Nat) (sh : String) (d : Nat)
    (gs : List Guard) :
    ((processRegular db lid sh d gs).map GuardEntry.id).Sublist (gs.map Guard.id) := by
  rw [processRegular_eq_filterMap, List.map_map]
  have h1 : ((gs.filter (includeCond db lid d)).map Guard.id).Sublist (gs.map Guard.id) :=
    (List.filter_sublist _).map _
  exact h1

theorem processTemp_acc_sub {db : DB} {sh : String} {d : Nat} :
    ∀ {os : List ShiftOverride} {acc res : List GuardEntry},
      processTemp db sh d acc os = some res → ∀ e ∈ acc, e ∈ res := by
  intro os
  induction os with
  | nil =>
    intro acc res h e he
    simp only [processTemp, Option.some.injEq] at h
    exact h ▸ he
  | cons o rest ih =>
    intro acc res h e he
    simp only [processTemp] at h
    cases hg : overrideGuard db o with
    | none =>
      simp only [hg] at h
      exact Option.noConfusion h
    | some g =>
      simp only [hg] at h
      by_cases hany : acc.any (fun e' => e'.id == g.id)
      · rw [if_pos hany] at h
        exact ih h e he
      · rw [if_neg hany] at h
        cases hte : tempEntry db g o sh d with
        | none =>
          simp only [hte] at h
          exact Option.noConfusion h
        | some e' =>
          simp only [hte] at h
          exact ih h e (List.mem_append_left _ he)

theorem processTemp_src {db : DB} {sh : String} {d : Nat} :
    ∀ {os : List ShiftOverride} {acc res : List GuardEntry},
      processTemp db sh d acc os = some res →
      ∀ e ∈ res, e ∈ acc ∨ (e.is_temporary = true ∧ ∃ o ∈ os, e.id = o.guard_id) := by
  intro os
  induction os with
  | nil =>
    intro acc res h e he
    simp only [processTemp, Option.some.injEq] at h
    exact Or.inl (h ▸ he)
  | cons o rest ih =>
    intro acc res h e he
    simp only [processTemp] at h
    cases hg : overrideGuard db o with
    | none =>
      simp only [hg] at h
      exact Option.noConfusion h
    | some g =>
      simp only [hg] at h
      by_cases hany : acc.any (fun e' => e'.id == g.id)
      · rw [if_pos hany] at h
        rcases ih h e he with h1 | ⟨h1, o', ho', h2⟩
        · exact Or.inl h1
        · exact Or.inr ⟨h1, o', List.mem_cons_of_mem _ ho', h2⟩
      · rw [if_neg hany] at h
        cases hte : tempEntry db g o sh d with
        | none =>
          simp only [hte] at h
          exact Option.noConfusion h
        | some e' =>
          simp only [hte] at h
          rcases ih h e he with h1 | ⟨h1, o', ho', h2⟩
          · rcases List.mem_append.mp h1 with h2 | h2
            · exact Or.inl h2
            · have he' : e = e' := by simpa using h2
              subst he'
              obtain ⟨hid, hterm, -, -⟩ := tempEntry_some hte
              refine Or.inr ⟨hterm, o, List.mem_cons_self _ _, ?_⟩
              rw [hid, (overrideGuard_some hg).2]
          · exact Or.inr ⟨h1, o', List.mem_cons_of_mem _ ho', h2⟩

theorem processTemp_pairwise {db : DB} {sh : String} {d : Nat} :
    ∀ {os : List ShiftOverride} {acc res : List GuardEntry},
      processTemp db sh d acc os = some res →
      acc.Pairwise (fun a b => a.id ≠ b.id) → res.Pairwise (fun a b => a.id ≠ b.id) := by
  intro os
  induction os with
  | nil =>
    intro acc res h hp
    simp only [processTemp, Option.some.injEq] at h
    exact h ▸ hp
  | cons o rest ih =>
    intro acc res h hp
    simp only [processTemp] at h
    cases hg : overrideGuard db o with
    | none =>
      simp only [hg] at h
      exact Option.noConfusion h
    | some g =>
      simp only [hg] at h
      by_cases hany : acc.any (fun e' => e'.id == g.id)
      · rw [if_pos hany] at h
        exact ih h hp
      · rw [if_neg hany] at h
        cases hte : tempEntry db g o sh d with
        | none =>
          simp only [hte] at h
          exact Option.noConfusion h
        | some e' =>
          simp only [hte] at h
          refine ih h (List.pairwise_append.mpr ⟨hp, List.pairwise_singleton _ _, ?_⟩)
          intro a ha b hb
          have hb' : b = e' := by simpa using hb
          subst hb'
          have hne : ¬ (a.id == g.id) = true := by
            intro hcontra
            exact hany (List.any_eq_true.mpr ⟨a, ha, hcontra⟩)
          rw [(tempEntry_some hte).1]
          simpa using hne

theorem processTemp_mem_dedup {db : DB} {sh : String} {d : Nat} :
    ∀ {os : List ShiftOverride} {acc res : List GuardEntry} {o : ShiftOverride},
      processTemp db sh d acc os = some res → o ∈ os →
      (∀ e ∈ acc, e.id ≠ o.guard_id) →
      (∀ o' ∈ os, o'.guard_id = o.guard_id → o' = o) →
      ∃ g e, overrideGuard db o = some g ∧ tempEntry db g o sh d = some e ∧ e ∈ res := by
  intro os
  induction os with
  | nil =>
    intro acc res o h ho
    exact absurd ho (List.not_mem_nil o)
  | cons o' rest ih =>
    intro acc res o h ho hacc huniq
    simp only [processTemp] at h
    cases hg : overrideGuard db o' with
    | none =>
      simp only [hg] at h
      exact Option.noConfusion h
    | some g =>
      simp only [hg] at h
      by_cases hany : acc.any (fun e' => e'.id == g.id)
      · rw [if_pos hany] at h
        obtain ⟨e, he, hid⟩ := List.any_eq_true.mp hany
        have hoo : o ≠ o' := by
          intro hcontra
          subst hcontra
          exact hacc e he (by rw [beq_iff_eq] at hid; rw [hid, (overrideGuard_some hg).2])
        have ho' : o ∈ rest := by
          rcases List.mem_cons.mp ho with h1 | h1
          · exact absurd h1 hoo
          · exact h1
        exact ih h ho' hacc (fun o'' ho'' heq => huniq o'' (List.mem_cons_of_mem _ ho'') heq)
      · rw [if_neg hany] at h
        cases hte : tempEntry db g o' sh d with
        | none =>
          simp only [hte] at h
          exact Option.noConfusion h
        | some e' =>
          simp only [hte] at h
          by_cases hoo : o = o'
          · subst hoo
            exact ⟨g, e', hg, hte,
              processTemp_acc_sub h e' (List.mem_append_right _ (List.mem_singleton.mpr rfl))⟩
          · have ho'' : o ∈ rest := by
              rcases List.mem_cons.mp ho with h1 | h1
              · exact absurd h1 hoo
              · exact h1
            refine ih h ho'' ?_ (fun o'' ho''' heq => huniq o'' (List.mem_cons_of_mem _ ho''') heq)
            intro e he
            rcases List.mem_append.mp he with h1 | h1
            · exact hacc e h1
            · have he' : e = e' := by simpa using h1
              subst he'
              rw [(tempEntry_some hte).1, (overrideGuard_some hg).2]
              intro hcontra
              exact hoo (huniq o' (List.mem_cons_self _ _) hcontra).symm

theorem get_guards_ok {db : DB} {p : Principal} {lid : Nat} {sh : String} {d : Nat}
    {res : List GuardEntry} (h : get_guards db (some p) lid sh d = .ok res) :
    ATTENDANCE_WRITE_ROLES.contains p.role = true ∧
    ∃ loc, db.locations.find? (fun l => l.id == lid) = some loc ∧ loc.is_accessible = true ∧
      processTemp db sh d
        (processRegular db lid sh d
          (db.guards.filter (fun g => g.location_id == lid && g.shift_type == sh)))
        (db.overrides.filter (fun o =>
          o.override_location_id == some lid && o.override_shift == sh &&
          o.date == d && o.is_active)) = some res := by
  simp only [get_guards] at h
  by_cases hrole : ATTENDANCE_WRITE_ROLES.contains p.role = true
  · rw [if_neg (not_not_intro hrole)] at h
    refine ⟨hrole, ?_⟩
    cases hl : db.locations.find? (fun l => l.id == lid) with
    | none =>
      simp only [hl] at h
      exact Resp.noConfusion h
    | some loc =>
      simp only [hl] at h
      by_cases hacc : loc.is_accessible = true
      · rw [if_neg (not_not_intro hacc)] at h
        cases hpt : processTemp db sh d
            (processRegular db lid sh d
              (db.guards.filter (fun g => g.location_id == lid && g.shift_type == sh)))
            (db.overrides.filter (fun o =>
              o.override_location_id == some lid && o.override_shift == sh &&
              o.date == d && o.is_active)) with
        | none =>
          simp only [hpt] at h
          exact Resp.noConfusion h
        | some res' =>
          simp only [hpt, Resp.ok.injEq] at h
          exact ⟨loc, rfl, hacc, congrArg some h⟩
      · rw [if_pos hacc] at h
        exact Resp.noConfusion h
  · rw [if_pos hrole] at h
    exact Resp.noConfusion h

theorem guardFilter_mem {db : DB} {lid : Nat} {sh : String} {g : Guard}
    (h : g ∈ db.guards.filter (fun g' => g'.location_id == lid && g'.shift_type == sh)) :
    g ∈ db.guards ∧ g.location_id = lid ∧ g.shift_type = sh := by
  have h' := List.mem_filter.mp h
  exact ⟨h'.1, by simpa [Bool.and_eq_true, beq_iff_eq] using h'.2⟩

theorem guardFilter_mem_of {db : DB} {lid : Nat} {sh : String} {g : Guard}
    (h1 : g ∈ db.guards) (h2 : g.location_id = lid) (h3 : g.shift_type = sh) :
    g ∈ db.guards.filter (fun g' => g'.location_id == lid && g'.shift_type == sh) :=
  List.mem_filter.mpr ⟨h1, by simp [h2, h3]⟩

theorem tempFilter_mem {db : DB} {lid : Nat} {sh : String} {d : Nat} {o : ShiftOverride}
    (h : o ∈ db.overrides.filter (fun o' =>
      o'.override_location_id == some lid && o'.override_shift == sh &&
      o'.date == d && o'.is_active)) :
    o ∈ db.overrides ∧ o.override_location_id = some lid ∧ o.override_shift = sh ∧
      o.date = d ∧ o.is_active = true := by
  have h' := List.mem_filter.mp h
  exact ⟨h'.1, by simpa [Bool.and_eq_true, beq_iff_eq, and_assoc] using h'.2⟩

theorem tempFilter_mem_of {db : DB} {lid : Nat} {sh : String} {d : Nat} {o : ShiftOverride}
    (h1 : o ∈ db.overrides) (h2 : o.override_location_id = some lid)
    (h3 : o.override_shift = sh) (h4 : o.date = d) (h5 : o.is_active = true) :
    o ∈ db.overrides.filter (fun o' =>
      o'.override_location_id == some lid && o'.override_shift == sh &&
      o'.date == d && o'.is_active) :=
  List.mem_filter.mpr ⟨h1, by simp [h2, h3, h4, h5]⟩

/-! The claims. -/

/-- Claim C1: for a guard `g` whose unique active override on date `d` moves
them to a different location, the resolved roster for the override's
(location, shift) contains `g` as a temporary entry carrying the original
location and company names, while the resolved roster for `g`'s home
(location, shift) does not contain `g` at all. -/
theorem roster_relocated_guard
    {db : DB} {p : Principal} {d : Nat} {g : Guard} {o : ShiftOverride}
    {lid2 li : Nat} {L : Location} {C : Company} {res1 res2 : List GuardEntry}
    (hg : g ∈ db.guards)
    (hgu : ∀ g' ∈ db.guards, g'.id = g.id → g' = g)
    (ho : o ∈ db.overrides) (hoa : o.is_active = true) (hod : o.date = d)
    (hog : o.guard_id = g.id)
    (holoc : o.override_location_id = some lid2) (hne : lid2 ≠ g.location_id)
    (hou : ∀ o' ∈ db.overrides, o'.is_active = true → o'.date = d →
      o'.guard_id = g.id → o' = o)
    (hol : o.original_location_id = some li)
    (hL : db.locations.find? (fun l => l.id == li) = some L)
    (hC : db.companies.find? (fun c => c.id == L.company_id) = some C)
    (hres1 : get_guards db (some p) lid2 o.override_shift d = .ok res1)
    (hres2 : get_guards db (some p) g.location_id g.shift_type d = .ok res2) :
    (∃ e ∈ res1, e.id = g.id ∧ e.is_temporary = true ∧
      e.original_location = some L.name ∧ e.original_company = some C.name) ∧
    (∀ e ∈ res2, e.id ≠ g.id) := by
  constructor
  · obtain ⟨hrole, loc, hloc, haccess, hpt⟩ := get_guards_ok hres1
    have hmem : o ∈ db.overrides.filter (fun o' =>
        o'.override_location_id == some lid2 && o'.override_shift == o.override_shift &&
        o'.date == d && o'.is_active) :=
      tempFilter_mem_of ho holoc rfl hod hoa
    have haccids : ∀ e ∈ processRegular db lid2 o.override_shift d
        (db.guards.filter (fun g' => g'.location_id == lid2 && g'.shift_type == o.override_shift)),
        e.id ≠ o.guard_id := by
      intro e he
      obtain ⟨g', hg', hinc, rfl⟩ := mem_processRegular.mp he
      rw [regularEntry_id, hog]
      intro heq
      obtain ⟨hg'db, hg'loc, -⟩ := guardFilter_mem hg'
      have hg'g : g' = g := hgu g' hg'db heq
      subst hg'g
      exact hne (hg'loc ▸ rfl)
    have huniq' : ∀ o' ∈ db.overrides.filter (fun o' =>
        o'.override_location_id == some lid2 && o'.override_shift == o.override_shift &&
        o'.date == d && o'.is_active), o'.guard_id = o.guard_id → o' = o := by
      intro o' ho' heq
      obtain ⟨ho'db, -, -, ho'date, ho'act⟩ := tempFilter_mem ho'
      exact hou o' ho'db ho'act ho'date (heq.trans hog)
    obtain ⟨g', e, hg'', hte, hein⟩ := processTemp_mem_dedup hpt hmem haccids huniq'
    obtain ⟨hg'db, hg'id⟩ := overrideGuard_some hg''
    have hg'g : g' = g := hgu g' hg'db (hg'id.trans hog)
    subst hg'g
    rw [tempEntry_eq hol hL hC, Option.some.injEq] at hte
    refine ⟨e, hein, ?_, ?_, ?_, ?_⟩ <;> rw [← hte]
  · obtain ⟨hrole, loc, hloc, haccess, hpt⟩ := get_guards_ok hres2
    intro e he
    rcases processTemp_src hpt e he with h1 | ⟨-, o', ho', h2⟩
    · obtain ⟨g', hg', hinc, rfl⟩ := mem_processRegular.mp h1
      rw [regularEntry_id]
      intro heq
      obtain ⟨hg'db, hg'loc, -⟩ := guardFilter_mem hg'
      have hg'g : g' = g := hgu g' hg'db heq
      subst hg'g
      have hfind : findOverrideFor db g'.id d = some o := by
        refine findOverrideFor_eq_some ho ?_ ?_
        · exact overrideKeyP_eq_true.mpr ⟨hog, hod, hoa⟩
        · intro o'' ho''db hk
          obtain ⟨hk1, hk2, hk3⟩ := overrideKeyP_eq_true.mp hk
          exact hou o'' ho''db hk3 hk2 hk1
      simp only [includeCond, hfind, holoc, beq_iff_eq, Option.some.injEq] at hinc
      exact hne (hinc.trans hg'loc)
    · rw [h2]
      obtain ⟨ho'db, ho'loc, -, ho'date, ho'act⟩ := tempFilter_mem ho'
      intro heq
      have ho'o : o' = o := hou o' ho'db ho'act ho'date heq
      subst ho'o
      rw [holoc, Option.some.injEq] at ho'loc
      exact hne ho'loc

/-- Witness for claim C1 at the concrete relocation fixture `exDBreloc`:
guard 1's override moves them from location 1 to location 2 on date 0; the
location-2 day roster contains them as a temporary entry with the original
location and company attached, and the location-1 day roster is empty. -/
theorem roster_relocated_guard_witness :
    (∃ e ∈ exRosterB, e.id = exGuard.id ∧ e.is_temporary = true ∧
      e.original_location = some exLocA.name ∧ e.original_company = some exCompany.name) ∧
    (∀ e ∈ ([] : List GuardEntry), e.id ≠ exGuard.id) :=
  @roster_relocated_guard exDBreloc exSup 0 exGuard exOvReloc 2 1 exLocA exCompany
    exRosterB []
    (by decide) (by decide) (by decide) (by decide) (by decide) (by decide) (by decide)
    (by decide) (by decide) (by decide) (by decide) (by decide) (by decide) (by decide)

/-- Claim C4: when the guard table has pairwise-distinct primary keys, every
resolved roster lists each guard identifier at most once — the regular part
draws distinct guards, and an inbound override whose guard already appears
in the result built so far is skipped rather than appended. -/
theorem roster_no_duplicate_ids
    {db : DB} {p : Principal} {lid : Nat} {sh : String} {d : Nat} {res : List GuardEntry}
    (hpw : db.guards.Pairwise (fun a b => a.id ≠ b.id))
    (hres : get_guards db (some p) lid sh d = .ok res) :
    res.Pairwise (fun a b => a.id ≠ b.id) := by
  obtain ⟨-, loc, -, -, hpt⟩ := get_guards_ok hres
  refine processTemp_pairwise hpt ?_
  have h1 : (db.guards.filter
      (fun g => g.location_id == lid && g.shift_type == sh)).Pairwise
      (fun a b => a.id ≠ b.id) := hpw.filter _
  have h3 : ((db.guards.filter (fun g => g.location_id == lid && g.shift_type == sh)).map
      Guard.id).Pairwise (fun a b => a ≠ b) := List.pairwise_map.mpr h1
  have h4 := List.Pairwise.sublist
    (processRegular_ids_sublist db lid sh d
      (db.guards.filter (fun g => g.location_id == lid && g.shift_type == sh))) h3
  exact List.pairwise_map.mp h4

/-- Witness for claim C4 on the relocation fixture's location-2 day roster. -/
theorem roster_no_duplicate_ids_witness :
    exRosterB.Pairwise (fun a b => a.id ≠ b.id) :=
  @roster_no_duplicate_ids exDBreloc exSup 2 "day" 0 exRosterB (by decide) (by decide)

/-- Counterexample to claim C2: in `exDBshiftOnly`, guard 1's active
override keeps location 1 but changes the shift to night; querying the home
roster (location 1, day) on that date still returns the guard — they are
not excluded from the home-shift roster. -/
theorem shift_only_override_home_counterexample :
    findOverrideFor exDBshiftOnly exGuard.id 0 = some exOvShiftOnly ∧
    exOvShiftOnly.override_shift ≠ "day" ∧
    exOvShiftOnly.override_location_id = some exGuard.location_id ∧
    get_guards exDBshiftOnly (some exSup) 1 "day" 0 = .ok [exEntryShiftOnly] ∧
    exEntryShiftOnly.id = exGuard.id := by
  decide

/-- Claim C2 (amended): a guard with an active override is removed from the
home-shift roster only when the override's location differs from the
queried location; when the override keeps the guard at the queried location
(a shift-only change), the guard still appears as a regular entry,
annotated with the override and with `current_shift` equal to the override
shift. -/
theorem shift_only_override_home_amended
    {db : DB} {p : Principal} {d : Nat} {g : Guard} {o : ShiftOverride}
    {lid : Nat} {sh : String} {res : List GuardEntry}
    (hg : g ∈ db.guards) (hloc : g.location_id = lid) (hsh : g.shift_type = sh)
    (hfind : findOverrideFor db g.id d = some o)
    (holoc : o.override_location_id = some lid)
    (hres : get_guards db (some p) lid sh d = .ok res) :
    ∃ e ∈ res, e.id = g.id ∧ e.is_temporary = false ∧ e.has_override = true ∧
      e.current_shift = o.override_shift := by
  obtain ⟨-, loc, -, -, hpt⟩ := get_guards_ok hres
  have hgf := guardFilter_mem_of hg hloc hsh
  have hinc : includeCond db lid d g = true := by
    simp [includeCond, hfind, holoc]
  have hmem : regularEntry db g (findOverrideFor db g.id d) sh d ∈
      processRegular db lid sh d
        (db.guards.filter (fun g' => g'.location_id == lid && g'.shift_type == sh)) :=
    mem_processRegular.mpr ⟨g, hgf, hinc, rfl⟩
  refine ⟨regularEntry db g (findOverrideFor db g.id d) sh d,
    processTemp_acc_sub hpt _ hmem, regularEntry_id db g _ sh d,
    regularEntry_is_temporary db g _ sh d, ?_, ?_⟩
  · rw [hfind, regularEntry_has_override]
    rfl
  · rw [hfind, regularEntry_current_shift]

/-- Witness for the amended claim C2 on the shift-only fixture. -/
theorem shift_only_override_home_amended_witness :
    ∃ e ∈ [exEntryShiftOnly], e.id = exGuard.id ∧ e.is_temporary = false ∧
      e.has_override = true ∧ e.current_shift = exOvShiftOnly.override_shift :=
  @shift_only_override_home_amended exDBshiftOnly exSup 0 exGuard exOvShiftOnly 1 "day"
    [exEntryShiftOnly]
    (by decide) (by decide) (by decide) (by decide) (by decide) (by decide)

/-- Counterexample to claim C3: in `exDBinactive` the only guard matching
(location 1, day) is deactivated (`is_active = false`), yet the resolved
roster returns them as a regular entry — the regular-guard query never
filters on `is_active`. -/
theorem regular_step_inactive_counterexample :
    exGuardInactive.is_active = false ∧
    get_guards exDBinactive (some exSup) 1 "day" 0 = .ok [exEntryInactive] ∧
    exEntryInactive.id = exGuardInactive.id ∧
    exEntryInactive.is_temporary = false := by
  decide

/-- Claim C3 (amended): the regular-guard step selects exactly the guards —
active or deactivated alike — whose home location and home shift equal the
query, minus those excluded by a relocating override; the `is_active` flag
is never consulted. -/
theorem regular_step_ignores_is_active
    {db : DB} {p : Principal} {lid : Nat} {sh : String} {d : Nat} {res : List GuardEntry}
    (hres : get_guards db (some p) lid sh d = .ok res) :
    (∀ e ∈ res, e.is_temporary = false →
      ∃ g ∈ db.guards, g.location_id = lid ∧ g.shift_type = sh ∧
        includeCond db lid d g = true ∧ e.id = g.id) ∧
    (∀ g ∈ db.guards, g.location_id = lid → g.shift_type = sh →
      includeCond db lid d g = true →
      ∃ e ∈ res, e.id = g.id ∧ e.is_temporary = false) := by
  obtain ⟨-, loc, -, -, hpt⟩ := get_guards_ok hres
  constructor
  · intro e he hreg
    rcases processTemp_src hpt e he with h1 | ⟨h1, -, -, -⟩
    · obtain ⟨g, hgf, hinc, rfl⟩ := mem_processRegular.mp h1
      obtain ⟨hgdb, hgloc, hgsh⟩ := guardFilter_mem hgf
      exact ⟨g, hgdb, hgloc, hgsh, hinc, regularEntry_id db g _ sh d⟩
    · rw [hreg] at h1
      exact absurd h1 (by simp)
  · intro g hgdb hgloc hgsh hinc
    have hmem : regularEntry db g (findOverrideFor db g.id d) sh d ∈
        processRegular db lid sh d
          (db.guards.filter (fun g' => g'.location_id == lid && g'.shift_type == sh)) :=
      mem_processRegular.mpr ⟨g, guardFilter_mem_of hgdb hgloc hgsh, hinc, rfl⟩
    exact ⟨regularEntry db g (findOverrideFor db g.id d) sh d,
      processTemp_acc_sub hpt _ hmem, regularEntry_id db g _ sh d,
      regularEntry_is_temporary db g _ sh d⟩

/-- Witness for the amended claim C3 on the deactivated-guard fixture. -/
theorem regular_step_ignores_is_active_witness :
    (∀ e ∈ [exEntryInactive], e.is_temporary = false →
      ∃ g ∈ exDBinactive.guards, g.location_id = 1 ∧ g.shift_type = "day" ∧
        includeCond exDBinactive 1 0 g = true ∧ e.id = g.id) ∧
    (∀ g ∈ exDBinactive.guards, g.location_id = 1 → g.shift_type = "day" →
      includeCond exDBinactive 1 0 g = true →
      ∃ e ∈ [exEntryInactive], e.id = g.id ∧ e.is_temporary = false) :=
  @regular_step_ignores_is_active exDBinactive exSup 1 "day" 0 [exEntryInactive] (by decide)

/-! Lemmas about the attendance ledger. -/

theorem head?_length_le_one {α : Type} {l : List α} {a : α}
    (h1 : l.head? = some a) (h2 : l.length ≤ 1) : l = [a] := by
  cases l with
  | nil => exact absurd h1 (by simp)
  | cons x t =>
    have hx : x = a := by simpa using h1
    cases t with
    | nil => rw [hx]
    | cons y u => simp at h2

theorem filter_eq_nil_of_find?_none {α : Type} {p : α → Bool} {l : List α}
    (h : l.find? p = none) : l.filter p = [] := by
  rw [find?_eq_head?_filter] at h
  exact List.head?_eq_none_iff.mp h

theorem filter_singleton_of_find?_some {α : Type} {p : α → Bool} {l : List α} {a : α}
    (h : l.find? p = some a) (hlen : (l.filter p).length ≤ 1) : l.filter p = [a] :=
  head?_length_le_one (by rw [← find?_eq_head?_filter]; exact h) hlen

theorem attKeyP_disjoint {gid d : Nat} {sh : String} {qgid qd : Nat} {qsh : String}
    (h : ¬ (qgid = gid ∧ qd = d ∧ qsh = sh)) :
    ∀ a, attKeyP gid d sh a = true → attKeyP qgid qd qsh a = false := by
  intro a ha
  obtain ⟨h1, h2, h3⟩ := attKeyP_eq_true.mp ha
  by_contra hq
  rw [Bool.not_eq_false] at hq
  obtain ⟨q1, q2, q3⟩ := attKeyP_eq_true.mp hq
  exact h ⟨q1.symm.trans h1, q2.symm.trans h2, q3.symm.trans h3⟩

theorem mark_attendance_auth {db : DB} {p : Principal} {gid : Nat}
    {status shift notes : String} {today now : Nat}
    (hrole : ATTENDANCE_WRITE_ROLES.contains p.role = true) :
    mark_attendance db (some p) gid status shift notes today now =
      mark_attendance_core db p.role gid status shift notes today now := by
  simp only [mark_attendance]
  rw [if_neg (not_not_intro hrole)]

theorem mark_core_upsert {db : DB} {role : String} {gid : Nat}
    {status shift notes : String} {today now : Nat} {g : Guard} {loc : Location}
    (hg : db.guards.find? (fun x => x.id == gid) = some g)
    (hl : db.locations.find? (fun l => l.id == g.location_id) = some loc)
    (hacc : loc.is_accessible = true)
    (hcount : (db.attendance.filter (attKeyP gid today shift)).length ≤ 1) :
    (mark_attendance_core db role gid status shift notes today now).2.isOk = true ∧
    (mark_attendance_core db role gid status shift notes today now).1.guards = db.guards ∧
    (mark_attendance_core db role gid status shift notes today now).1.locations = db.locations ∧
    (∃ a, (mark_attendance_core db role gid status shift notes today now).1.attendance.filter
        (attKeyP gid today shift) = [a] ∧
      a.status = some status ∧ a.notes = some notes ∧ a.marked_by = role ∧ a.timestamp = now) := by
  simp only [mark_attendance_core, hg, hl]
  rw [if_neg (not_not_intro hacc)]
  cases ha : db.attendance.find? (attKeyP gid today shift) with
  | some a0 =>
    simp only [ha]
    refine ⟨by trivial, by trivial, by trivial, ?_⟩
    have hf : ∀ a, attKeyP gid today shift a = true →
        attKeyP gid today shift
          ({ a with status := some status, notes := some notes,
                    marked_by := role, timestamp := now }) = true :=
      fun a h' => h'
    rw [filter_updateFirst_key hf, filter_singleton_of_find?_some ha hcount]
    exact ⟨⟨a0.id, a0.guard_id, a0.date, a0.shift, some status, some notes, role, now⟩,
      rfl, rfl, rfl, rfl, rfl⟩
  | none =>
    simp only [ha]
    refine ⟨by trivial, by trivial, by trivial, ?_⟩
    rw [List.filter_append, filter_eq_nil_of_find?_none ha]
    simp only [List.nil_append]
    rw [List.filter_cons_of_pos (by simp [attKeyP])]
    exact ⟨⟨db.attendance_next_id, gid, today, shift, some status, some notes, role, now⟩,
      rfl, rfl, rfl, rfl, rfl⟩

/-- Claim C5: single-mark is an unconditional upsert on the key
`(guard, date, shift)`: two successive `mark_attendance` calls with two
statuses both succeed and leave exactly one attendance record for the key,
carrying the second call's status and notes. -/
theorem mark_attendance_upsert_twice
    {db : DB} {p : Principal} {gid : Nat} {s1 s2 sh n1 n2 : String}
    {today now1 now2 : Nat} {g : Guard} {loc : Location}
    (hrole : ATTENDANCE_WRITE_ROLES.contains p.role = true)
    (hg : db.guards.find? (fun x => x.id == gid) = some g)
    (hl : db.locations.find? (fun l => l.id == g.location_id) = some loc)
    (hacc : loc.is_accessible = true)
    (hcount : (db.attendance.filter (attKeyP gid today sh)).length ≤ 1) :
    (mark_attendance db (some p) gid s1 sh n1 today now1).2.isOk = true ∧
    (mark_attendance (mark_attendance db (some p) gid s1 sh n1 today now1).1
      (some p) gid s2 sh n2 today now2).2.isOk = true ∧
    ∃ a, (mark_attendance (mark_attendance db (some p) gid s1 sh n1 today now1).1
        (some p) gid s2 sh n2 today now2).1.attendance.filter (attKeyP gid today sh) = [a] ∧
      a.status = some s2 ∧ a.notes = some n2 := by
  rw [mark_attendance_auth hrole]
  obtain ⟨hok1, hgs1, hls1, a1, hf1, -, -, -, -⟩ :=
    @mark_core_upsert db p.role gid s1 sh n1 today now1 g loc hg hl hacc hcount
  rw [mark_attendance_auth hrole]
  obtain ⟨hok2, -, -, a2, hf2, ha2s, ha2n, -, -⟩ :=
    @mark_core_upsert (mark_attendance_core db p.role gid s1 sh n1 today now1).1 p.role
      gid s2 sh n2 today now2 g loc (hgs1 ▸ hg) (hls1 ▸ hl) hacc
      (by rw [hf1]; exact Nat.le_refl 1)
  exact ⟨hok1, hok2, a2, hf2, ha2s, ha2n⟩

/-- Witness for claim C5: marking guard 1 present then absent on the empty
fixture leaves one record with the second status and notes. -/
theorem mark_attendance_upsert_twice_witness :
    (mark_attendance exDBplain (some exSup) 1 "present" "day" "n1" 0 0).2.isOk = true ∧
    (mark_attendance (mark_attendance exDBplain (some exSup) 1 "present" "day" "n1" 0 0).1
      (some exSup) 1 "absent" "day" "n2" 0 1).2.isOk = true ∧
    ∃ a, (mark_attendance (mark_attendance exDBplain (some exSup) 1 "present" "day" "n1" 0 0).1
        (some exSup) 1 "absent" "day" "n2" 0 1).1.attendance.filter (attKeyP 1 0 "day") = [a] ∧
      a.status = some "absent" ∧ a.notes = some "n2" :=
  @mark_attendance_upsert_twice exDBplain exSup 1 "present" "absent" "day" "n1" "n2"
    0 0 1 exGuard exLocA
    (by decide) (by decide) (by decide) (by decide) (by decide)

/-- Counterexample to claim C9: in `exDBinaccHome`, guard 1's home location
(location 3) is inaccessible while an active override relocates them to the
accessible location 1 for the query date; `mark_attendance` nevertheless
fails with 403 and writes nothing — the accessibility check reads
`guard.location`, the home location, ignoring the override. -/
theorem mark_override_location_counterexample :
    exOvToA.guard_id = exGuardAtC.id ∧ exOvToA.is_active = true ∧ exOvToA.date = 0 ∧
    exOvToA.override_location_id = some exLocA.id ∧ exLocA.is_accessible = true ∧
    exGuardAtC.location_id = exLocC.id ∧ exLocC.is_accessible = false ∧
    mark_attendance exDBinaccHome (some exSup) 1 "present" "day" "" 0 0 =
      (exDBinaccHome, .err 403 "Guard assigned to an inaccessible location") := by
  decide

/-- Claim C9 (amended): `mark_attendance` requires the guard's *home*
location to be accessible; when the home location is inaccessible the call
fails with 403 and changes no state, regardless of any active override
relocating the guard to an accessible location. -/
theorem mark_requires_home_location_accessible
    {db : DB} {p : Principal} {gid : Nat} {status sh notes : String}
    {today now : Nat} {g : Guard} {loc : Location}
    (hrole : ATTENDANCE_WRITE_ROLES.contains p.role = true)
    (hg : db.guards.find? (fun x => x.id == gid) = some g)
    (hl : db.locations.find? (fun l => l.id == g.location_id) = some loc)
    (hacc : loc.is_accessible = false) :
    mark_attendance db (some p) gid status sh notes today now =
      (db, .err 403 "Guard assigned to an inaccessible location") := by
  rw [mark_attendance_auth hrole]
  simp only [mark_attendance_core, hg, hl]
  rw [if_pos (by simp [hacc])]

/-- Witness for the amended claim C9 on the inaccessible-home fixture. -/
theorem mark_requires_home_location_accessible_witness :
    mark_attendance exDBinaccHome (some exSup) 1 "present" "day" "" 0 0 =
      (exDBinaccHome, .err 403 "Guard assigned to an inaccessible location") :=
  @mark_requires_home_location_accessible exDBinaccHome exSup 1 "present" "day" "" 0 0
    exGuardAtC exLocC (by decide) (by decide) (by decide) (by decide)

/-- Claim C10: a successful `mark_attendance` stores the caller's role
string (not the username) in `marked_by`, and both `mark_attendance` and
`bulk_mark_attendance` return identical results for any two principals with
the same role — records written by different supervisors are
indistinguishable by marker. -/
theorem marked_by_records_role
    {db : DB} {p p2 : Principal} {gid : Nat} {status sh notes : String}
    {today now : Nat} {g : Guard} {loc : Location} {lid : Nat} {bstatus : String}
    (hrole : ATTENDANCE_WRITE_ROLES.contains p.role = true)
    (hg : db.guards.find? (fun x => x.id == gid) = some g)
    (hl : db.locations.find? (fun l => l.id == g.location_id) = some loc)
    (hacc : loc.is_accessible = true)
    (hcount : (db.attendance.filter (attKeyP gid today sh)).length ≤ 1)
    (hr2 : p2.role = p.role) :
    (∃ a, (mark_attendance db (some p) gid status sh notes today now).1.attendance.filter
        (attKeyP gid today sh) = [a] ∧ a.marked_by = p.role) ∧
    mark_attendance db (some p2) gid status sh notes today now =
      mark_attendance db (some p) gid status sh notes today now ∧
    bulk_mark_attendance db (some p2) lid sh bstatus today now =
      bulk_mark_attendance db (some p) lid sh bstatus today now := by
  refine ⟨?_, ?_, ?_⟩
  · rw [mark_attendance_auth hrole]
    obtain ⟨-, -, -, a, hf, -, -, hm, -⟩ :=
      @mark_core_upsert db p.role gid status sh notes today now g loc hg hl hacc hcount
    exact ⟨a, hf, hm⟩
  · simp only [mark_attendance, hr2]
  · simp only [bulk_mark_attendance, hr2]

/-- Witness for claim C10: marking with supervisor "alice" and with
supervisor "bob" (same role, different usernames) coincide, and the stored
marker is the role string. -/
theorem marked_by_records_role_witness :
    (∃ a, (mark_attendance exDBplain (some exSup) 1 "present" "day" "" 0 0).1.attendance.filter
        (attKeyP 1 0 "day") = [a] ∧ a.marked_by = exSup.role) ∧
    mark_attendance exDBplain (some exSup2) 1 "present" "day" "" 0 0 =
      mark_attendance exDBplain (some exSup) 1 "present" "day" "" 0 0 ∧
    bulk_mark_attendance exDBplain (some exSup2) 1 "day" "present" 0 0 =
      bulk_mark_attendance exDBplain (some exSup) 1 "day" "present" 0 0 :=
  @marked_by_records_role exDBplain exSup exSup2 1 "present" "day" "" 0 0 exGuard exLocA
    1 "present"
    (by decide) (by decide) (by decide) (by decide) (by decide) (by decide)

/-! Lemmas about override management. -/

theorem ActiveUnique_of_length_le_one {db : DB} (h : db.overrides.length ≤ 1) :
    ActiveUnique db := by
  intro gid d
  exact le_trans (List.countP_le_length _) h

theorem createStep_ActiveUnique (db : DB) (r : CreateReq) (h : ActiveUnique db) :
    ActiveUnique (createStep db r) := by
  unfold createStep
  cases hs : r.session with
  | none =>
    simp only [create_shift_override]
    exact h
  | some p =>
    simp only [create_shift_override]
    by_cases hrole : ATTENDANCE_WRITE_ROLES.contains p.role = true
    · rw [if_neg (not_not_intro hrole)]
      cases hgq : db.guards.find? (fun g => g.id == r.guard_id) with
      | none =>
        simp only [hgq]
        exact h
      | some guard =>
        simp only [hgq]
        cases hex : db.overrides.find? (overrideKeyP r.guard_id r.date) with
        | some ex =>
          simp only [hex]
          intro gid dd
          have hcp := countP_updateFirst
            (p := overrideKeyP r.guard_id r.date) (q := overrideKeyP gid dd)
            (f := fun o => { o with
              override_shift := r.override_shift,
              override_location_id := some (pyOr r.override_location_id guard.location_id),
              reason := r.reason, created_by := p.username, created_at := r.now })
            (fun o _ => rfl) db.overrides
          simpa [hcp] using h gid dd
        | none =>
          simp only [hex]
          intro gid dd
          simp only [List.countP_append]
          by_cases hq : overrideKeyP gid dd
              ({ id := db.override_next_id, guard_id := r.guard_id,
                 original_shift := guard.shift_type, override_shift := r.override_shift,
                 original_location_id := some guard.location_id,
                 override_location_id := some (pyOr r.override_location_id guard.location_id),
                 date := r.date, reason := r.reason, created_by := p.username,
                 created_at := r.now, is_active := true } : ShiftOverride) = true
          · obtain ⟨q1, q2, -⟩ := overrideKeyP_eq_true.mp hq
            have hzero : db.overrides.countP (overrideKeyP gid dd) = 0 := by
              rw [List.countP_eq_zero]
              intro o ho
              have hn := List.find?_eq_none.mp hex o ho
              intro hko
              obtain ⟨k1, k2, k3⟩ := overrideKeyP_eq_true.mp hko
              exact hn (overrideKeyP_eq_true.mpr ⟨k1.trans q1.symm, k2.trans q2.symm, k3⟩)
            rw [hzero]
            simp [List.countP_cons, hq]
          · have h1 := h gid dd
            simp [List.countP_cons, hq]
            omega
    · rw [if_pos hrole]
      exact h

theorem applyCreates_ActiveUnique :
    ∀ (reqs : List CreateReq) (db : DB), ActiveUnique db → ActiveUnique (applyCreates db reqs)
  | [], _, h => h
  | r :: rs, db, h => applyCreates_ActiveUnique rs (createStep db r) (createStep_ActiveUnique db r h)

/-- Claim C7: the at-most-one-active-override-per-(guard, date) invariant is
preserved by any sequence of `create_shift_override` calls, and a call for a
(guard, date) that already has an active override rewrites that row's
override-side fields, reason, creator and timestamp in place — keeping its
id and its `original_shift` / `original_location_id` snapshot, adding no
row. -/
theorem override_upsert_unique
    {db : DB} {reqs : List CreateReq} {p : Principal} {gid : Nat}
    {oshift : String} {oloc : Option Nat} {reason : String} {d now : Nat}
    {g : Guard} {ex : ShiftOverride}
    (hinv : ActiveUnique db)
    (hrole : ATTENDANCE_WRITE_ROLES.contains p.role = true)
    (hg : db.guards.find? (fun x => x.id == gid) = some g)
    (hex : db.overrides.find? (overrideKeyP gid d) = some ex) :
    ActiveUnique (applyCreates db reqs) ∧
    (create_shift_override db (some p) gid oshift oloc reason d now).2 =
      .ok "Shift override created successfully" ∧
    (create_shift_override db (some p) gid oshift oloc reason d now).1.overrides.length =
      db.overrides.length ∧
    ∃ o' ∈ (create_shift_override db (some p) gid oshift oloc reason d now).1.overrides,
      o'.id = ex.id ∧ o'.original_shift = ex.original_shift ∧
      o'.original_location_id = ex.original_location_id ∧
      o'.override_shift = oshift ∧
      o'.override_location_id = some (pyOr oloc g.location_id) ∧
      o'.reason = reason ∧ o'.created_by = p.username ∧ o'.created_at = now ∧
      o'.is_active = ex.is_active := by
  refine ⟨applyCreates_ActiveUnique reqs db hinv, ?_⟩
  simp only [create_shift_override]
  rw [if_neg (not_not_intro hrole)]
  simp only [hg, hex]
  refine ⟨by trivial, length_updateFirst _ _ _, ?_⟩
  refine ⟨⟨ex.id, ex.guard_id, ex.original_shift, oshift, ex.original_location_id,
    some (pyOr oloc g.location_id), ex.date, reason, p.username, now, ex.is_active⟩,
    mem_updateFirst_of_find? hex, rfl, rfl, rfl, rfl, rfl, rfl, rfl, rfl, rfl⟩

/-- Witness for claim C7: updating guard 1's existing shift-only override
with a relocation to location 2 rewrites the row in place. -/
theorem override_upsert_unique_witness :
    ActiveUnique (applyCreates exDBshiftOnly [⟨some exSup, 1, "day", some 2, "move", 0, 9⟩]) ∧
    (create_shift_override exDBshiftOnly (some exSup) 1 "day" (some 2) "move" 0 9).2 =
      .ok "Shift override created successfully" ∧
    (create_shift_override exDBshiftOnly (some exSup) 1 "day" (some 2) "move" 0 9).1.overrides.length =
      exDBshiftOnly.overrides.length ∧
    ∃ o' ∈ (create_shift_override exDBshiftOnly (some exSup) 1 "day" (some 2) "move" 0 9).1.overrides,
      o'.id = exOvShiftOnly.id ∧ o'.original_shift = exOvShiftOnly.original_shift ∧
      o'.original_location_id = exOvShiftOnly.original_location_id ∧
      o'.override_shift = "day" ∧
      o'.override_location_id = some (pyOr (some 2) exGuard.location_id) ∧
      o'.reason = "move" ∧ o'.created_by = exSup.username ∧ o'.created_at = 9 ∧
      o'.is_active = exOvShiftOnly.is_active :=
  @override_upsert_unique exDBshiftOnly [⟨some exSup, 1, "day", some 2, "move", 0, 9⟩]
    exSup 1 "day" (some 2) "move" 0 9 exGuard exOvShiftOnly
    (ActiveUnique_of_length_le_one (by decide)) (by decide) (by decide) (by decide)

/-- Claim C8: `remove_shift_override` returns 404 and leaves the store
untouched when no active override exists for the guard on the target date;
when one exists it soft-deactivates the row in place — the overrides table
keeps the same length and still holds the row (same id and data) with
`is_active = false`, and no other table changes. -/
theorem remove_override_soft
    {db1 db2 : DB} {p : Principal} {gid1 gid2 today : Nat} {o : ShiftOverride}
    (hrole : ATTENDANCE_WRITE_ROLES.contains p.role = true)
    (h1 : db1.overrides.find? (overrideKeyP gid1 today) = none)
    (h2 : db2.overrides.find? (overrideKeyP gid2 today) = some o) :
    remove_shift_override db1 (some p) gid1 today =
      (db1, .err 404 "No active override found") ∧
    (remove_shift_override db2 (some p) gid2 today).2 = .ok "Shift override removed" ∧
    (remove_shift_override db2 (some p) gid2 today).1.overrides.length =
      db2.overrides.length ∧
    (∃ o' ∈ (remove_shift_override db2 (some p) gid2 today).1.overrides,
      o'.id = o.id ∧ o'.guard_id = o.guard_id ∧ o'.date = o.date ∧
      o'.is_active = false ∧ o'.override_shift = o.override_shift ∧
      o'.override_location_id = o.override_location_id ∧
      o'.original_shift = o.original_shift ∧
      o'.original_location_id = o.original_location_id ∧ o'.reason = o.reason) ∧
    (remove_shift_override db2 (some p) gid2 today).1.guards = db2.guards ∧
    (remove_shift_override db2 (some p) gid2 today).1.locations = db2.locations ∧
    (remove_shift_override db2 (some p) gid2 today).1.attendance = db2.attendance := by
  constructor
  · simp only [remove_shift_override]
    rw [if_neg (not_not_intro hrole)]
    simp only [h1]
  · simp only [remove_shift_override]
    rw [if_neg (not_not_intro hrole)]
    simp only [h2]
    refine ⟨by trivial, length_updateFirst _ _ _, ?_, by trivial, by trivial, by trivial⟩
    refine ⟨⟨o.id, o.guard_id, o.original_shift, o.override_shift, o.original_location_id,
      o.override_location_id, o.date, o.reason, o.created_by, o.created_at, false⟩,
      mem_updateFirst_of_find? h2, rfl, rfl, rfl, rfl, rfl, rfl, rfl, rfl, rfl⟩

/-- Witness for claim C8: removing guard 1's override on the plain fixture
is a 404; removing it on the shift-only fixture deactivates the row in
place. -/
theorem remove_override_soft_witness :
    remove_shift_override exDBplain (some exSup) 1 0 =
      (exDBplain, .err 404 "No active override found") ∧
    (remove_shift_override exDBshiftOnly (some exSup) 1 0).2 = .ok "Shift override removed" ∧
    (remove_shift_override exDBshiftOnly (some exSup) 1 0).1.overrides.length =
      exDBshiftOnly.overrides.length ∧
    (∃ o' ∈ (remove_shift_override exDBshiftOnly (some exSup) 1 0).1.overrides,
      o'.id = exOvShiftOnly.id ∧ o'.guard_id = exOvShiftOnly.guard_id ∧
      o'.date = exOvShiftOnly.date ∧ o'.is_active = false ∧
      o'.override_shift = exOvShiftOnly.override_shift ∧
      o'.override_location_id = exOvShiftOnly.override_location_id ∧
      o'.original_shift = exOvShiftOnly.original_shift ∧
      o'.original_location_id = exOvShiftOnly.original_location_id ∧
      o'.reason = exOvShiftOnly.reason) ∧
    (remove_shift_override exDBshiftOnly (some exSup) 1 0).1.guards = exDBshiftOnly.guards ∧
    (remove_shift_override exDBshiftOnly (some exSup) 1 0).1.locations = exDBshiftOnly.locations ∧
    (remove_shift_override exDBshiftOnly (some exSup) 1 0).1.attendance = exDBshiftOnly.attendance :=
  @remove_override_soft exDBplain exDBshiftOnly exSup 1 1 0 exOvShiftOnly
    (by decide) (by decide) (by decide)

/-! Lemmas about the bulk-mark loop. -/

theorem countP_congr_mem {α : Type} {p q : α → Bool} :
    ∀ {l : List α}, (∀ a ∈ l, p a = q a) → l.countP p = l.countP q := by
  intro l
  induction l with
  | nil => intro _; rfl
  | cons x xs ih =>
    intro h
    rw [List.countP_cons, List.countP_cons, h x (List.mem_cons_self _ _),
      ih (fun a ha => h a (List.mem_cons_of_mem _ ha))]

theorem countP_not_add {α : Type} (p : α → Bool) :
    ∀ (l : List α), l.countP (fun a => ! p a) + l.countP p = l.length := by
  intro l
  induction l with
  | nil => rfl
  | cons x xs ih =>
    rw [List.countP_cons, List.countP_cons]
    cases hp : p x <;> simp [hp] <;> omega

theorem alreadyMarked_eq_of_filter_eq {db db' : DB} {gid d : Nat} {sh : String}
    (h : db'.attendance.filter (attKeyP gid d sh) = db.attendance.filter (attKeyP gid d sh)) :
    alreadyMarked db' gid d sh = alreadyMarked db gid d sh := by
  unfold alreadyMarked
  rw [find?_eq_head?_filter, find?_eq_head?_filter, h]

theorem attKeyP_bulkNew_self (db : DB) (gid : Nat) (status sh role : String) (today now : Nat) :
    attKeyP gid today sh (bulkNew db gid status sh role today now) = true := by
  simp [attKeyP, bulkNew]

theorem bulkStep_filter_update {gid qgid today qd : Nat} {sh qsh status role : String}
    {now : Nat} (hd : ¬ (qgid = gid ∧ qd = today ∧ qsh = sh)) (l : List Attendance) :
    (updateFirst (attKeyP gid today sh) (bulkUpd status role now) l).filter
        (attKeyP qgid qd qsh) = l.filter (attKeyP qgid qd qsh) :=
  @filter_updateFirst_disj Attendance (attKeyP gid today sh) (attKeyP qgid qd qsh)
    (bulkUpd status role now) (attKeyP_disjoint hd)
    (fun a ha => attKeyP_disjoint hd a ha) l

theorem bulkStep_filter_new {gid qgid today qd : Nat} {sh qsh status role : String}
    {now : Nat} {db : DB} (hd : ¬ (qgid = gid ∧ qd = today ∧ qsh = sh))
    (l : List Attendance) :
    (l ++ [bulkNew db gid status sh role today now]).filter (attKeyP qgid qd qsh) =
      l.filter (attKeyP qgid qd qsh) := by
  have h1 := attKeyP_disjoint hd _ (attKeyP_bulkNew_self db gid status sh role today now)
  rw [List.filter_append, List.filter_cons_of_neg (by simp [h1]), List.filter_nil,
    List.append_nil]

theorem bulkLoop_filter_other {role sh status : String} {today now : Nat}
    {qgid qd : Nat} {qsh : String} :
    ∀ {gs : List Guard} {db : DB} {m s : Nat},
      (∀ g ∈ gs, ¬ (qgid = g.id ∧ qd = today ∧ qsh = sh)) →
      (bulkLoop role sh status today now db m s gs).1.attendance.filter (attKeyP qgid qd qsh) =
        db.attendance.filter (attKeyP qgid qd qsh) := by
  intro gs
  induction gs with
  | nil => intro db m s _; rfl
  | cons g gs ih =>
    intro db m s hdisj
    have hg := hdisj g (List.mem_cons_self _ _)
    have hrest := fun g' hg' => hdisj g' (List.mem_cons_of_mem _ hg')
    simp only [bulkLoop]
    cases ha : db.attendance.find? (attKeyP g.id today sh) with
    | some a =>
      simp only [ha]
      by_cases ht : truthyStatus a.status = true
      · rw [if_pos ht]
        exact ih hrest
      · rw [if_neg ht]
        exact (ih hrest).trans (bulkStep_filter_update hg db.attendance)
    | none =>
      simp only [ha]
      exact (ih hrest).trans (bulkStep_filter_new hg db.attendance)

theorem bulkLoop_spec {role sh status : String} {today now : Nat} :
    ∀ {gs : List Guard} {db : DB} {m s : Nat},
      gs.Pairwise (fun a b => a.id ≠ b.id) →
      (∀ g ∈ gs, (db.attendance.filter (attKeyP g.id today sh)).length ≤ 1) →
      (bulkLoop role sh status today now db m s gs).2.1 =
          m + gs.countP (fun g => ! alreadyMarked db g.id today sh) ∧
      (bulkLoop role sh status today now db m s gs).2.2 =
          s + gs.countP (fun g => alreadyMarked db g.id today sh) ∧
      (∀ g ∈ gs, alreadyMarked db g.id today sh = true →
        (bulkLoop role sh status today now db m s gs).1.attendance.filter
          (attKeyP g.id today sh) = db.attendance.filter (attKeyP g.id today sh)) ∧
      (∀ g ∈ gs, alreadyMarked db g.id today sh = false →
        ∃ a, (bulkLoop role sh status today now db m s gs).1.attendance.filter
            (attKeyP g.id today sh) = [a] ∧
          a.status = some status ∧ a.marked_by = role ∧ a.timestamp = now) := by
  intro gs
  induction gs with
  | nil =>
    intro db m s _ _
    exact ⟨rfl, rfl, by simp, by simp⟩
  | cons g gs ih =>
    intro db m s hpw hbound
    have hne : ∀ g' ∈ gs, g.id ≠ g'.id := (List.pairwise_cons.mp hpw).1
    have hpw' := (List.pairwise_cons.mp hpw).2
    simp only [bulkLoop]
    cases ha : db.attendance.find? (attKeyP g.id today sh) with
    | some a =>
      simp only [ha]
      by_cases ht : truthyStatus a.status = true
      · rw [if_pos ht]
        have hAM : alreadyMarked db g.id today sh = true := by
          simp only [alreadyMarked, ha]
          exact ht
        obtain ⟨hm, hs', hkeep, hmark⟩ :=
          ih hpw' (fun g' hg' => hbound g' (List.mem_cons_of_mem _ hg'))
        refine ⟨?_, ?_, ?_, ?_⟩
        · rw [hm, List.countP_cons, hAM]
          simp
        · rw [hs', List.countP_cons, hAM]
          simp
          omega
        · intro g' hg' hAM'
          rcases List.mem_cons.mp hg' with heq | hg''
          · subst heq
            exact bulkLoop_filter_other (fun g'' hg'' hcon => hne g'' hg'' hcon.1)
          · exact hkeep g' hg'' hAM'
        · intro g' hg' hAM'
          rcases List.mem_cons.mp hg' with heq | hg''
          · subst heq
            rw [hAM] at hAM'
            exact absurd hAM' (by simp)
          · exact hmark g' hg'' hAM'
      · rw [if_neg ht]
        rw [Bool.not_eq_true] at ht
        have hAM : alreadyMarked db g.id today sh = false := by
          simp only [alreadyMarked, ha]
          exact ht
        set dbNext : DB := { db with attendance := updateFirst (attKeyP g.id today sh) (bulkUpd status role now) db.attendance } with hdbNext
        have hstep : ∀ g' ∈ gs, dbNext.attendance.filter (attKeyP g'.id today sh) =
            db.attendance.filter (attKeyP g'.id today sh) := by
          intro g' hg'
          exact bulkStep_filter_update (fun hcon => hne g' hg' hcon.1.symm) db.attendance
        have hAMeq : ∀ g' ∈ gs, alreadyMarked dbNext g'.id today sh =
            alreadyMarked db g'.id today sh :=
          fun g' hg' => alreadyMarked_eq_of_filter_eq (hstep g' hg')
        obtain ⟨hm, hs', hkeep, hmark⟩ := @ih dbNext (m + 1) s hpw' (fun g' hg' => by
          rw [hstep g' hg']
          exact hbound g' (List.mem_cons_of_mem _ hg'))
        refine ⟨?_, ?_, ?_, ?_⟩
        · rw [hm, countP_congr_mem (fun g' hg' => by rw [hAMeq g' hg']),
            List.countP_cons, hAM]
          simp
          omega
        · rw [hs', countP_congr_mem (fun g' hg' => hAMeq g' hg'), List.countP_cons, hAM]
          simp
        · intro g' hg' hAM'
          rcases List.mem_cons.mp hg' with heq | hg''
          · subst heq
            rw [hAM] at hAM'
            exact absurd hAM' (by simp)
          · exact (hkeep g' hg'' (by rw [hAMeq g' hg'']; exact hAM')).trans (hstep g' hg'')
        · intro g' hg' hAM'
          rcases List.mem_cons.mp hg' with heq | hg''
          · subst heq
            have hdbf : dbNext.attendance.filter (attKeyP g'.id today sh) =
                [bulkUpd status role now a] := by
              show (updateFirst (attKeyP g'.id today sh) (bulkUpd status role now)
                db.attendance).filter (attKeyP g'.id today sh) = _
              rw [@filter_updateFirst_key Attendance (attKeyP g'.id today sh)
                  (bulkUpd status role now) (fun a' h' => h') db.attendance,
                filter_singleton_of_find?_some ha (hbound g' (List.mem_cons_self _ _))]
            refine ⟨bulkUpd status role now a,
              (bulkLoop_filter_other (fun g'' hg'' hcon => hne g'' hg'' hcon.1)).trans hdbf,
              rfl, rfl, rfl⟩
          · obtain ⟨a', hfa, h1, h2, h3⟩ :=
              hmark g' hg'' (by rw [hAMeq g' hg'']; exact hAM')
            exact ⟨a', hfa, h1, h2, h3⟩
    | none =>
      simp only [ha]
      have hAM : alreadyMarked db g.id today sh = false := by
        simp only [alreadyMarked, ha]
      set dbNext : DB := { db with attendance := db.attendance ++ [bulkNew db g.id status sh role today now], attendance_next_id := db.attendance_next_id + 1 } with hdbNext
      have hstep : ∀ g' ∈ gs, dbNext.attendance.filter (attKeyP g'.id today sh) =
          db.attendance.filter (attKeyP g'.id today sh) := by
        intro g' hg'
        exact bulkStep_filter_new (fun hcon => hne g' hg' hcon.1.symm) db.attendance
      have hAMeq : ∀ g' ∈ gs, alreadyMarked dbNext g'.id today sh =
          alreadyMarked db g'.id today sh :=
        fun g' hg' => alreadyMarked_eq_of_filter_eq (hstep g' hg')
      obtain ⟨hm, hs', hkeep, hmark⟩ := @ih dbNext (m + 1) s hpw' (fun g' hg' => by
        rw [hstep g' hg']
        exact hbound g' (List.mem_cons_of_mem _ hg'))
      refine ⟨?_, ?_, ?_, ?_⟩
      · rw [hm, countP_congr_mem (fun g' hg' => by rw [hAMeq g' hg']),
          List.countP_cons, hAM]
        simp
        omega
      · rw [hs', countP_congr_mem (fun g' hg' => hAMeq g' hg'), List.countP_cons, hAM]
        simp
      · intro g' hg' hAM'
        rcases List.mem_cons.mp hg' with heq | hg''
        · subst heq
          rw [hAM] at hAM'
          exact absurd hAM' (by simp)
        · exact (hkeep g' hg'' (by rw [hAMeq g' hg'']; exact hAM')).trans (hstep g' hg'')
      · intro g' hg' hAM'
        rcases List.mem_cons.mp hg' with heq | hg''
        · subst heq
          have hdbf : dbNext.attendance.filter (attKeyP g'.id today sh) =
              [bulkNew db g'.id status sh role today now] := by
            show (db.attendance ++ [bulkNew db g'.id status sh role today now]).filter
              (attKeyP g'.id today sh) = _
            rw [List.filter_append, filter_eq_nil_of_find?_none ha,
              List.filter_cons_of_pos (attKeyP_bulkNew_self db g'.id status sh role today now),
              List.filter_nil, List.nil_append]
          refine ⟨bulkNew db g'.id status sh role today now,
            (bulkLoop_filter_other (fun g'' hg'' hcon => hne g'' hg'' hcon.1)).trans hdbf,
            rfl, rfl, rfl⟩
        · obtain ⟨a', hfa, h1, h2, h3⟩ :=
            hmark g' hg'' (by rw [hAMeq g' hg'']; exact hAM')
          exact ⟨a', hfa, h1, h2, h3⟩

theorem bulk_mark_eq {db : DB} {p : Principal} {lid : Nat} {sh status : String}
    {today now : Nat} {loc : Location}
    (hrole : ATTENDANCE_WRITE_ROLES.contains p.role = true)
    (hl : db.locations.find? (fun l => l.id == lid) = some loc)
    (hacc : loc.is_accessible = true) :
    bulk_mark_attendance db (some p) lid sh status today now =
      ((bulkLoop p.role sh status today now db 0 0 (homeGuards db lid sh)).1,
       .ok ((bulkLoop p.role sh status today now db 0 0 (homeGuards db lid sh)).2.1,
            (bulkLoop p.role sh status today now db 0 0 (homeGuards db lid sh)).2.2,
            bulkMessage
              (bulkLoop p.role sh status today now db 0 0 (homeGuards db lid sh)).2.1
              (bulkLoop p.role sh status today now db 0 0 (homeGuards db lid sh)).2.2)) := by
  simp only [bulk_mark_attendance]
  rw [if_neg (not_not_intro hrole)]
  simp only [hl]
  rw [if_neg (not_not_intro hacc)]
  rfl

/-- Claim C6: `bulk_mark_attendance` iterates over exactly the guards whose
home assignment is `(locationId, shift)`.  Among them, a guard whose
existing record for `(guard, today, shift)` carries a non-empty status is
skipped with that record left unchanged; every other one gets the given
status upserted; every attendance key outside that guard set is untouched;
and the call returns the marked and skipped counts (also embedded in the
toast message) with marked + skipped equal to the number of home guards. -/
theorem bulk_mark_static_roster
    {db : DB} {p : Principal} {lid : Nat} {sh status : String} {today now : Nat}
    {loc : Location} {db' : DB} {marked skipped : Nat} {msg : String}
    (hrole : ATTENDANCE_WRITE_ROLES.contains p.role = true)
    (hl : db.locations.find? (fun l => l.id == lid) = some loc)
    (hacc : loc.is_accessible = true)
    (hpw : db.guards.Pairwise (fun a b => a.id ≠ b.id))
    (hcount : ∀ g ∈ homeGuards db lid sh,
      (db.attendance.filter (attKeyP g.id today sh)).length ≤ 1)
    (hout : bulk_mark_attendance db (some p) lid sh status today now =
      (db', .ok (marked, skipped, msg))) :
    marked = (homeGuards db lid sh).countP (fun g => ! alreadyMarked db g.id today sh) ∧
    skipped = (homeGuards db lid sh).countP (fun g => alreadyMarked db g.id today sh) ∧
    marked + skipped = (homeGuards db lid sh).length ∧
    (∀ g ∈ homeGuards db lid sh, alreadyMarked db g.id today sh = true →
      db'.attendance.filter (attKeyP g.id today sh) =
        db.attendance.filter (attKeyP g.id today sh)) ∧
    (∀ g ∈ homeGuards db lid sh, alreadyMarked db g.id today sh = false →
      ∃ a, db'.attendance.filter (attKeyP g.id today sh) = [a] ∧
        a.status = some status ∧ a.marked_by = p.role ∧ a.timestamp = now) ∧
    (∀ qgid qd : Nat, ∀ qsh : String,
      (∀ g ∈ homeGuards db lid sh, ¬ (qgid = g.id ∧ qd = today ∧ qsh = sh)) →
      db'.attendance.filter (attKeyP qgid qd qsh) =
        db.attendance.filter (attKeyP qgid qd qsh)) ∧
    msg = bulkMessage marked skipped := by
  rw [bulk_mark_eq hrole hl hacc] at hout
  simp only [Prod.mk.injEq, Resp.ok.injEq] at hout
  obtain ⟨hdb, hmk, hsk, hmsg⟩ := hout
  have hpwh : (homeGuards db lid sh).Pairwise (fun a b => a.id ≠ b.id) := hpw.filter _
  obtain ⟨hm, hs', hkeep, hmark⟩ :=
    @bulkLoop_spec p.role sh status today now (homeGuards db lid sh) db 0 0 hpwh hcount
  subst hdb hmk hsk hmsg
  refine ⟨by rw [hm]; omega, by rw [hs']; omega, ?_, ?_, ?_, ?_, ?_⟩
  · rw [hm, hs']
    simpa using countP_not_add (fun g => alreadyMarked db g.id today sh) (homeGuards db lid sh)
  · exact hkeep
  · exact hmark
  · intro qgid qd qsh hq
    exact bulkLoop_filter_other hq
  · rfl

/-- Witness for claim C6 on `exDBbulk`: two home guards at (location 1,
day); guard 1 is already marked present, guard 2 is unmarked; requesting
"absent" marks exactly guard 2 and reports one marked, one skipped, with
guard 1's record intact. -/
theorem bulk_mark_static_roster_witness :
    1 = (homeGuards exDBbulk 1 "day").countP
        (fun g => ! alreadyMarked exDBbulk g.id 0 "day") ∧
    1 = (homeGuards exDBbulk 1 "day").countP
        (fun g => alreadyMarked exDBbulk g.id 0 "day") ∧
    1 + 1 = (homeGuards exDBbulk 1 "day").length ∧
    (∀ g ∈ homeGuards exDBbulk 1 "day", alreadyMarked exDBbulk g.id 0 "day" = true →
      exDBbulkAfter.attendance.filter (attKeyP g.id 0 "day") =
        exDBbulk.attendance.filter (attKeyP g.id 0 "day")) ∧
    (∀ g ∈ homeGuards exDBbulk 1 "day", alreadyMarked exDBbulk g.id 0 "day" = false →
      ∃ a, exDBbulkAfter.attendance.filter (attKeyP g.id 0 "day") = [a] ∧
        a.status = some "absent" ∧ a.marked_by = exSup.role ∧ a.timestamp = 5) ∧
    (∀ qgid qd : Nat, ∀ qsh : String,
      (∀ g ∈ homeGuards exDBbulk 1 "day", ¬ (qgid = g.id ∧ qd = 0 ∧ qsh = "day")) →
      exDBbulkAfter.attendance.filter (attKeyP qgid qd qsh) =
        exDBbulk.attendance.filter (attKeyP qgid qd qsh)) ∧
    "1 guards marked successfully. (1 skipped as they were already marked.)" =
      bulkMessage 1 1 :=
  @bulk_mark_static_roster exDBbulk exSup 1 "day" "absent" 0 5 exLocA exDBbulkAfter 1 1
    "1 guards marked successfully. (1 skipped as they were already marked.)"
    (by decide) (by decide) (by decide) (by decide) (by decide) (by decide)

end SecuritySystem
